import Mathlib

/-!
# I3C master loop-back orchestrator (`I3C_Baremetal_masterside.c`)

A shallow embedding of `I3C_callback` and `i3c_master_loopback_demo`.

The orchestrator is a labelled transition system.  A state holds the globals
of the C file (`cb_event`, `tx_data`, `rx_data`, `tx_cnt`, `rx_cnt`), the live
locals of `i3c_master_loopback_demo` (`slave_addr`, `len`) and a program
counter naming the next statement to run.  The environment drives the system
with two kinds of input:

* `Input.orch ret da`: the orchestrator runs up to its next control point.  If
  the statement is a driver call, `ret` is the code the driver returns and `da`
  the byte the driver stores through the `&slave_addr` pointer of
  `MasterAssignDA`; other statements ignore both.
* `Input.irq event rx`: the driver's interrupt context runs: it may store
  received bytes into the receive buffer (`rx`) and then calls
  `I3C_callback event`.

Each step reports the call it issued (if any), so a run yields the final state
and the sequence of calls made.  `printf` and `sys_busy_loop_us` have no effect
on the modelled state and are left out.  The two infinite loops of the source
are not cut off by fuel: `while(1);` is the absorbing location `PC.halt`, and
the completion wait re-evaluates its condition once per `Input.orch`.

`hardware_init` only talks to the GPIO driver and the pin multiplexer; the
orchestrator sees its return value alone, which is therefore an input like the
return code of a driver call.  Return codes are integers: the source stores
them in a `uint32_t` and compares with a constant, which for `int32_t` codes is
the comparison of the integers themselves.  Bytes are naturals reduced modulo
256 where they are stored, the counters naturals reduced modulo `2^32`.
-/

namespace I3CMaster

/-! ## The embedding -/

/-- Constants of `Driver_I3C.h` / `Driver_Common.h`, which are not part of the
sources at hand; every definition takes them as a parameter. -/
structure DriverConsts where
  ARM_DRIVER_OK : Int
  ARM_I3C_EVENT_TRANSFER_DONE : Nat
  ARM_I3C_EVENT_TRANSFER_ERROR : Nat
deriving DecidableEq, Repr

/-- `#define I3C_SLV_TAR (0x48)` -/
def I3C_SLV_TAR : Nat := 0x48

/-- `I3C_CB_EVENT_SUCCESS = (1 << 0)` -/
def I3C_CB_EVENT_SUCCESS : Nat := 1 <<< 0

/-- `I3C_CB_EVENT_ERROR = (1 << 1)` -/
def I3C_CB_EVENT_ERROR : Nat := 1 <<< 1

/-- A `uint8_t [4]` array. -/
structure Buf4 where
  b0 : Nat
  b1 : Nat
  b2 : Nat
  b3 : Nat
deriving DecidableEq, Repr

/-- The bytes of a buffer in index order. -/
def Buf4.toList (b : Buf4) : List Nat := [b.b0, b.b1, b.b2, b.b3]

/-- Storing into `uint8_t` cells keeps the low eight bits. -/
def Buf4.wrap (b : Buf4) : Buf4 :=
  ⟨b.b0 % 256, b.b1 % 256, b.b2 % 256, b.b3 % 256⟩

/-- The four statements `tx_data[i] += 1;` (lines 293-296), on `uint8_t`. -/
def Buf4.incr (b : Buf4) : Buf4 :=
  ⟨(b.b0 + 1) % 256, (b.b1 + 1) % 256, (b.b2 + 1) % 256, (b.b3 + 1) % 256⟩

/-- The four statements `rx_data[i] = 0x00;` (lines 324-327). -/
def Buf4.zero : Buf4 := ⟨0, 0, 0, 0⟩

/-- C library `memcmp` on the first `n` bytes: the difference of the first
pair of bytes that differ, `0` when there is none. -/
def memcmp : List Nat → List Nat → Nat → Int
  | a :: as, b :: bs, n + 1 => if a ≠ b then (a : Int) - (b : Int) else memcmp as bs n
  | _, _, _ => 0

/-- Argument of `PowerControl`. -/
inductive PowerState where
  | ARM_POWER_FULL
  | ARM_POWER_OFF
deriving DecidableEq, Repr

/-- The calls `i3c_master_loopback_demo` makes, with the arguments that vary. -/
inductive Call where
  | GetVersion
  | HardwareInit
  | InitializeDrv
  | PowerControl (p : PowerState)
  | Control
  | MasterAssignDA (staticAddr : Nat)
  | MasterTransmit (addr : Nat) (data : Buf4) (len : Nat)
  | MasterReceive (addr : Nat) (len : Nat)
  | UninitializeDrv
deriving DecidableEq, Repr

/-- The three asynchronous bus operations, whose completion is awaited. -/
def Call.isBusOp : Call → Bool
  | .MasterAssignDA _ => true
  | .MasterTransmit _ _ _ => true
  | .MasterReceive _ _ => true
  | _ => false

/-- Control points of `i3c_master_loopback_demo`; the line is that of the
statement the orchestrator runs next. -/
inductive PC where
  | start      -- 198  GetVersion
  | hwInit     -- 203  hardware_init
  | drvInit    -- 211  Initialize
  | powerFull  -- 219  PowerControl(ARM_POWER_FULL)
  | control    -- 232  Control(I3C_MASTER_SET_BUS_MODE, I3C_BUS_MODE_PURE)
  | clearDA1   -- 241  cb_event = 0
  | assignDA1  -- 243  MasterAssignDA
  | waitDA1    -- 253  while(!(cb_event == SUCCESS || cb_event == ERROR));
  | clearDA2   -- 259  cb_event = 0
  | assignDA2  -- 267  MasterAssignDA
  | waitDA2    -- 275  while(...)
  | checkDA2   -- 277  if(cb_event == I3C_CB_EVENT_ERROR)
  | loopFill   -- 287  len = 4; tx_data[i] += 1
  | clearTx    -- 299  cb_event = 0
  | transmit   -- 302  MasterTransmit
  | waitTx     -- 310  while(...)
  | checkTx    -- 312  if(cb_event == I3C_CB_EVENT_ERROR)
  | incTx      -- 318  tx_cnt += 1; rx_data[i] = 0
  | clearRx    -- 330  cb_event = 0
  | receive    -- 333  MasterReceive
  | waitRx     -- 341  while(...)
  | checkRx    -- 343  if(cb_event == I3C_CB_EVENT_ERROR)
  | compare    -- 349  rx_cnt += 1; memcmp
  | powerOff   -- 362  error_poweroff: PowerControl(ARM_POWER_OFF)
  | uninit     -- 371  error_uninitialize: Uninitialize
  | returned   -- 378  the function has returned
  | halt       -- 280, 315, 346, 356  while(1);
deriving DecidableEq, Repr

/-- The orchestrator sits in one of the four completion waits. -/
def PC.inFlight : PC → Bool
  | .waitDA1 => true
  | .waitDA2 => true
  | .waitTx => true
  | .waitRx => true
  | _ => false

/-- Globals of the file, live locals of `i3c_master_loopback_demo`, and the
program counter. -/
structure State where
  pc : PC
  cb_event : Nat
  tx_data : Buf4
  rx_data : Buf4
  tx_cnt : Nat
  rx_cnt : Nat
  slave_addr : Nat
  len : Nat
deriving DecidableEq, Repr

/-- The state at entry: the initialisers of lines 71-80 and 188-191. -/
def initState : State :=
  { pc := .start, cb_event := 0, tx_data := ⟨0x00, 0x01, 0x02, 0x03⟩,
    rx_data := ⟨0, 0, 0, 0⟩, tx_cnt := 0, rx_cnt := 0, slave_addr := 0x00, len := 0 }

/-- `I3C_callback` (lines 164-174): two independent `if`s, the error test last. -/
def I3C_callback (C : DriverConsts) (event : Nat) (s : State) : State :=
  let s1 := if event &&& C.ARM_I3C_EVENT_TRANSFER_DONE ≠ 0
            then { s with cb_event := I3C_CB_EVENT_SUCCESS } else s
  if event &&& C.ARM_I3C_EVENT_TRANSFER_ERROR ≠ 0
  then { s1 with cb_event := I3C_CB_EVENT_ERROR } else s1

/-- What the environment supplies for one step. -/
inductive Input where
  | orch (ret : Int) (da : Nat)
  | irq (event : Nat) (rx : Option Buf4)
deriving DecidableEq, Repr

/-- The condition that ends a completion wait (lines 253, 275, 310, 341). -/
def waitDone (s : State) : Bool :=
  s.cb_event == I3C_CB_EVENT_SUCCESS || s.cb_event == I3C_CB_EVENT_ERROR

/-- One step of the system: the next state and the call issued, if any. -/
def step (C : DriverConsts) (s : State) : Input → State × Option Call
  | .irq event rx =>
      (I3C_callback C event
        (match rx with
         | some b => { s with rx_data := b.wrap }
         | none => s), none)
  | .orch ret da =>
    match s.pc with
    | .start => ({ s with pc := .hwInit }, some .GetVersion)
    | .hwInit =>
        (if ret ≠ 0 then { s with pc := .returned } else { s with pc := .drvInit },
         some .HardwareInit)
    | .drvInit =>
        (if ret ≠ C.ARM_DRIVER_OK then { s with pc := .returned }
         else { s with pc := .powerFull }, some .InitializeDrv)
    | .powerFull =>
        (if ret ≠ C.ARM_DRIVER_OK then { s with pc := .uninit }
         else { s with pc := .control }, some (.PowerControl .ARM_POWER_FULL))
    | .control => ({ s with pc := .clearDA1 }, some .Control)
    | .clearDA1 => ({ s with pc := .assignDA1, cb_event := 0 }, none)
    | .assignDA1 =>
        (if ret ≠ C.ARM_DRIVER_OK then { s with pc := .powerOff, slave_addr := da % 256 }
         else { s with pc := .waitDA1, slave_addr := da % 256 },
         some (.MasterAssignDA I3C_SLV_TAR))
    | .waitDA1 => (if waitDone s then { s with pc := .clearDA2 } else s, none)
    | .clearDA2 => ({ s with pc := .assignDA2, cb_event := 0 }, none)
    | .assignDA2 =>
        (if ret ≠ C.ARM_DRIVER_OK then { s with pc := .powerOff, slave_addr := da % 256 }
         else { s with pc := .waitDA2, slave_addr := da % 256 },
         some (.MasterAssignDA I3C_SLV_TAR))
    | .waitDA2 => (if waitDone s then { s with pc := .checkDA2 } else s, none)
    | .checkDA2 =>
        (if s.cb_event = I3C_CB_EVENT_ERROR then { s with pc := .halt }
         else { s with pc := .loopFill }, none)
    | .loopFill => ({ s with pc := .clearTx, len := 4, tx_data := s.tx_data.incr }, none)
    | .clearTx => ({ s with pc := .transmit, cb_event := 0 }, none)
    | .transmit =>
        (if ret ≠ C.ARM_DRIVER_OK then { s with pc := .powerOff }
         else { s with pc := .waitTx },
         some (.MasterTransmit s.slave_addr s.tx_data s.len))
    | .waitTx => (if waitDone s then { s with pc := .checkTx } else s, none)
    | .checkTx =>
        (if s.cb_event = I3C_CB_EVENT_ERROR then { s with pc := .halt }
         else { s with pc := .incTx }, none)
    | .incTx =>
        ({ s with pc := .clearRx, tx_cnt := (s.tx_cnt + 1) % 2 ^ 32, rx_data := Buf4.zero },
         none)
    | .clearRx => ({ s with pc := .receive, cb_event := 0 }, none)
    | .receive =>
        (if ret ≠ C.ARM_DRIVER_OK then { s with pc := .powerOff }
         else { s with pc := .waitRx },
         some (.MasterReceive s.slave_addr s.len))
    | .waitRx => (if waitDone s then { s with pc := .checkRx } else s, none)
    | .checkRx =>
        (if s.cb_event = I3C_CB_EVENT_ERROR then { s with pc := .halt }
         else { s with pc := .compare }, none)
    | .compare =>
        (if memcmp s.tx_data.toList s.rx_data.toList s.len ≠ 0
         then { s with pc := .halt, rx_cnt := (s.rx_cnt + 1) % 2 ^ 32 }
         else { s with pc := .loopFill, rx_cnt := (s.rx_cnt + 1) % 2 ^ 32 }, none)
    | .powerOff => ({ s with pc := .uninit }, some (.PowerControl .ARM_POWER_OFF))
    | .uninit => ({ s with pc := .returned }, some .UninitializeDrv)
    | .returned => (s, none)
    | .halt => (s, none)

/-- Run the system over a list of inputs: the final state and the calls issued,
in order. -/
def run (C : DriverConsts) : State → List Input → State × List Call
  | s, [] => (s, [])
  | s, i :: is =>
    match step C s i with
    | (s1, c) =>
      match run C s1 is with
      | (s2, tr) => (s2, c.toList ++ tr)

/-- An orchestrator step at a statement that is not a driver call. -/
abbrev tick : Input := .orch 0 0

/-- The orchestrator re-evaluates a wait condition `k` times. -/
def polls (k : Nat) : List Input := List.replicate k tick

/-- A sample choice of the header constants, for concrete evaluations. -/
def sampleConsts : DriverConsts :=
  { ARM_DRIVER_OK := 0, ARM_I3C_EVENT_TRANSFER_DONE := 1, ARM_I3C_EVENT_TRANSFER_ERROR := 2 }

/-- The location the orchestrator moves to when a completion wait ends. -/
def PC.afterWait : PC → PC
  | .waitDA1 => .clearDA2
  | .waitDA2 => .checkDA2
  | .waitTx => .checkTx
  | .waitRx => .checkRx
  | p => p

/-- The value `I3C_callback` leaves in the flag for an event that carries at
least one of the two bits. -/
def outcome (C : DriverConsts) (e : Nat) : Nat :=
  if e &&& C.ARM_I3C_EVENT_TRANSFER_ERROR ≠ 0 then I3C_CB_EVENT_ERROR else I3C_CB_EVENT_SUCCESS

/-- The receive buffer after the interrupt context has (or has not) stored bytes. -/
def rxAfter (rx : Option Buf4) (old : Buf4) : Buf4 :=
  match rx with
  | some b => b.wrap
  | none => old

/-- The event carries the done bit or the error bit. -/
def completes (C : DriverConsts) (e : Nat) : Prop :=
  e &&& C.ARM_I3C_EVENT_TRANSFER_DONE ≠ 0 ∨ e &&& C.ARM_I3C_EVENT_TRANSFER_ERROR ≠ 0

/-- How the environment treats one awaited operation: the byte the driver
stores through `&slave_addr` (used by `MasterAssignDA` only), the number of idle
polls before the completion interrupt, the event word of that interrupt, and
the bytes the interrupt context stores into the receive buffer (if any). -/
structure OpEnv where
  da : Nat
  k : Nat
  e : Nat
  rx : Option Buf4
deriving DecidableEq, Repr

/-- One awaited operation: the flag is cleared, the call is accepted, the
orchestrator polls `k` times in vain, the completion interrupt arrives, and the
next poll leaves the wait. -/
def opSched (C : DriverConsts) (o : OpEnv) : List Input :=
  [tick, .orch C.ARM_DRIVER_OK o.da] ++ (polls o.k ++ [.irq o.e o.rx, tick])

instance (C : DriverConsts) (e : Nat) : Decidable (completes C e) :=
  inferInstanceAs (Decidable (_ ∨ _))

/-- The run up to the steady-state loop with every request accepted: version
query, pin set-up, driver start, power-up, bus configuration (returning any code
`rc`), then the two address-assignment rounds and the test of the second
outcome. -/
def handshake (C : DriverConsts) (rc : Int) (o1 o2 : OpEnv) : List Input :=
  [tick, .orch 0 0, .orch C.ARM_DRIVER_OK 0, .orch C.ARM_DRIVER_OK 0, .orch rc 0] ++
    (opSched C o1 ++ (opSched C o2 ++ [tick]))

/-- The transmit half of a loop iteration: fill the buffer, the awaited
transmit, the test of its outcome. -/
def txSched (C : DriverConsts) (o : OpEnv) : List Input :=
  tick :: (opSched C o ++ [tick])

/-- The receive half: count the transmit and zero the receive buffer, the
awaited receive, the test of its outcome, the comparison. -/
def rxSched (C : DriverConsts) (o : OpEnv) : List Input :=
  tick :: (opSched C o ++ [tick, tick])

/-- One whole loop iteration. -/
def iterSched (C : DriverConsts) (o1 o2 : OpEnv) : List Input :=
  txSched C o1 ++ rxSched C o2

/-- The event reports Success: done bit set, error bit clear. -/
def succeeds (C : DriverConsts) (e : Nat) : Prop :=
  e &&& C.ARM_I3C_EVENT_TRANSFER_DONE ≠ 0 ∧ e &&& C.ARM_I3C_EVENT_TRANSFER_ERROR = 0

instance (C : DriverConsts) (e : Nat) : Decidable (succeeds C e) :=
  inferInstanceAs (Decidable (_ ∧ _))

/-- The bytes of the last `MasterTransmit` in a sequence of calls. -/
def lastTransmitted : List Call → Option Buf4
  | [] => none
  | c :: cs =>
    match lastTransmitted cs with
    | some b => some b
    | none =>
      match c with
      | .MasterTransmit _ d _ => some d
      | _ => none

/-- One loop iteration against an echoing peer: the bytes the interrupt
context stores into the receive buffer are those of the `MasterTransmit` the
orchestrator has just issued. -/
def echoIter (C : DriverConsts) (o1 o2 : OpEnv) (s : State) : State × List Call :=
  ((run C (run C s (txSched C o1)).1
      (rxSched C { o2 with rx := lastTransmitted (run C s (txSched C o1)).2 })).1,
   (run C s (txSched C o1)).2 ++
     (run C (run C s (txSched C o1)).1
       (rxSched C { o2 with rx := lastTransmitted (run C s (txSched C o1)).2 })).2)

/-- The state after `n` iterations against an echoing peer; `env i` is the
environment of iteration `i` (transmit, receive), counted from 1. -/
def echoRun (C : DriverConsts) (env : Nat → OpEnv × OpEnv) : Nat → State → State
  | 0, s => s
  | n + 1, s => (echoIter C (env (n + 1)).1 (env (n + 1)).2 (echoRun C env n s)).1

/-- The transmit buffer of iteration `n` when it started as `00 01 02 03`. -/
def txOf (n : Nat) : Buf4 :=
  ⟨(0 + n) % 256, (1 + n) % 256, (2 + n) % 256, (3 + n) % 256⟩

/-- The state in which the loop is entered after a handshake whose first round
ended in Error and whose second round ended in Success. -/
def loopEntry : State :=
  (run sampleConsts initState
    (handshake sampleConsts 0 ⟨0, 2, 2, none⟩ ⟨9, 1, 1, none⟩)).1

/-- The call issued from each of the three places where the flag is cleared
before an operation whose outcome is tested. -/
def issuedAfterClear (s : State) : Call :=
  if s.pc = .clearDA2 then .MasterAssignDA I3C_SLV_TAR
  else if s.pc = .clearTx then .MasterTransmit s.slave_addr s.tx_data s.len
  else .MasterReceive s.slave_addr s.len

/-- The locations from which a bus operation is issued. -/
def PC.issues : PC → Bool
  | .assignDA1 => true
  | .assignDA2 => true
  | .transmit => true
  | .receive => true
  | _ => false

/-- The locations of the clean-up path and the two final locations. -/
def PC.pastBus : PC → Bool
  | .powerOff => true
  | .uninit => true
  | .returned => true
  | .halt => true
  | _ => false

/-- States reachable from the entry state of `i3c_master_loopback_demo` under
any driver return codes, with callback interrupts delivered only while the
orchestrator is in a completion wait. -/
inductive Disciplined (C : DriverConsts) : State → Prop where
  | entry : Disciplined C initState
  | orch (s : State) (ret : Int) (da : Nat) (h : Disciplined C s) :
      Disciplined C (step C s (.orch ret da)).1
  | irq (s : State) (event : Nat) (rx : Option Buf4) (h : Disciplined C s)
      (hw : s.pc.inFlight = true) : Disciplined C (step C s (.irq event rx)).1

/-- Every interrupt of the input list arrives while the orchestrator is in a
completion wait. -/
def admissible (C : DriverConsts) : State → List Input → Bool
  | _, [] => true
  | s, i :: is =>
    (match i with
     | .irq _ _ => s.pc.inFlight
     | .orch _ _ => true) && admissible C (step C s i).1 is

/-- The environment of an iteration in which the transmit and the receive
complete with Success at once. -/
def promptEnv : Nat → OpEnv × OpEnv :=
  fun _ => (⟨0, 0, 1, none⟩, ⟨0, 0, 1, none⟩)

/-- The state at line 318 of iteration `2^32`, after `2^32 - 1` iterations
against an echoing peer and a successful transmit. -/
def wrapState : State :=
  { pc := .incTx, cb_event := 1, tx_data := ⟨0, 1, 2, 3⟩, rx_data := ⟨255, 0, 1, 2⟩,
    tx_cnt := 4294967295, rx_cnt := 4294967295, slave_addr := 9, len := 4 }

/-- The call is a `MasterTransmit`. -/
def Call.isTx : Call → Bool
  | .MasterTransmit _ _ _ => true
  | _ => false

/-- The calls of a sequence that precede its first `MasterTransmit`. -/
def beforeTx : List Call → List Call
  | [] => []
  | c :: cs => if c.isTx then [] else c :: beforeTx cs

/-- The calls that remain to be issued before the first `MasterTransmit`, from
each location up to the first transmit of the loop. -/
def PC.dueBeforeTx : PC → List Call
  | .start => [.GetVersion, .HardwareInit, .InitializeDrv, .PowerControl .ARM_POWER_FULL,
      .Control, .MasterAssignDA I3C_SLV_TAR, .MasterAssignDA I3C_SLV_TAR]
  | .hwInit => [.HardwareInit, .InitializeDrv, .PowerControl .ARM_POWER_FULL,
      .Control, .MasterAssignDA I3C_SLV_TAR, .MasterAssignDA I3C_SLV_TAR]
  | .drvInit => [.InitializeDrv, .PowerControl .ARM_POWER_FULL,
      .Control, .MasterAssignDA I3C_SLV_TAR, .MasterAssignDA I3C_SLV_TAR]
  | .powerFull => [.PowerControl .ARM_POWER_FULL,
      .Control, .MasterAssignDA I3C_SLV_TAR, .MasterAssignDA I3C_SLV_TAR]
  | .control => [.Control, .MasterAssignDA I3C_SLV_TAR, .MasterAssignDA I3C_SLV_TAR]
  | .clearDA1 => [.MasterAssignDA I3C_SLV_TAR, .MasterAssignDA I3C_SLV_TAR]
  | .assignDA1 => [.MasterAssignDA I3C_SLV_TAR, .MasterAssignDA I3C_SLV_TAR]
  | .waitDA1 => [.MasterAssignDA I3C_SLV_TAR]
  | .clearDA2 => [.MasterAssignDA I3C_SLV_TAR]
  | .assignDA2 => [.MasterAssignDA I3C_SLV_TAR]
  | _ => []

/-- The locations from the entry up to the first `MasterTransmit`. -/
def PC.preTx : PC → Bool
  | .start | .hwInit | .drvInit | .powerFull | .control | .clearDA1 | .assignDA1 | .waitDA1
  | .clearDA2 | .assignDA2 | .waitDA2 | .checkDA2 | .loopFill | .clearTx | .transmit => true
  | _ => false

/-! ## Supporting lemmas -/

theorem run_nil (C : DriverConsts) (s : State) : run C s [] = (s, []) := rfl

theorem run_cons (C : DriverConsts) (s : State) (i : Input) (is : List Input) :
    run C s (i :: is) =
      ((run C (step C s i).1 is).1, (step C s i).2.toList ++ (run C (step C s i).1 is).2) := rfl

theorem run_append (C : DriverConsts) (s : State) (xs ys : List Input) :
    run C s (xs ++ ys) =
      ((run C (run C s xs).1 ys).1, (run C s xs).2 ++ (run C (run C s xs).1 ys).2) := by
  induction xs generalizing s with
  | nil => simp [run_nil]
  | cons i is ih => simp [run_cons, ih, List.append_assoc]

/-- An interrupt changes neither the program counter nor the counters, the
transmit buffer or the locals, and issues no call. -/
theorem step_irq (C : DriverConsts) (s : State) (e : Nat) (rx : Option Buf4) :
    (step C s (.irq e rx)).1.pc = s.pc ∧ (step C s (.irq e rx)).2 = none ∧
    (step C s (.irq e rx)).1.tx_cnt = s.tx_cnt ∧ (step C s (.irq e rx)).1.rx_cnt = s.rx_cnt ∧
    (step C s (.irq e rx)).1.tx_data = s.tx_data ∧
    (step C s (.irq e rx)).1.slave_addr = s.slave_addr ∧
    (step C s (.irq e rx)).1.len = s.len := by
  cases rx <;> simp only [step, I3C_callback] <;> split_ifs <;> simp

/-- In `while(1);` every step leaves the location and the counters alone and
issues nothing. -/
theorem step_halt (C : DriverConsts) (s : State) (i : Input) (h : s.pc = .halt) :
    (step C s i).1.pc = .halt ∧ (step C s i).2 = none ∧
    (step C s i).1.tx_cnt = s.tx_cnt ∧ (step C s i).1.rx_cnt = s.rx_cnt := by
  cases i with
  | irq e rx =>
    have := step_irq C s e rx
    simp [this, h]
  | orch r d => simp [step, h]

/-- Permanent halt: from `while(1);` no run ever leaves it, issues a call or
moves a counter. -/
theorem halt_forever (C : DriverConsts) (s : State) (h : s.pc = .halt) (is : List Input) :
    (run C s is).1.pc = .halt ∧ (run C s is).2 = [] ∧
    (run C s is).1.tx_cnt = s.tx_cnt ∧ (run C s is).1.rx_cnt = s.rx_cnt := by
  induction is generalizing s with
  | nil => simp [run_nil, h]
  | cons i is ih =>
    obtain ⟨h1, h2, h3, h4⟩ := step_halt C s i h
    obtain ⟨k1, k2, k3, k4⟩ := ih (step C s i).1 h1
    simp [run_cons, k1, k2, k3, k4, h2, h3, h4]

/-- After the function has returned no call is issued any more. -/
theorem returned_forever (C : DriverConsts) (s : State) (h : s.pc = .returned)
    (is : List Input) :
    (run C s is).1.pc = .returned ∧ (run C s is).2 = [] := by
  induction is generalizing s with
  | nil => simp [run_nil, h]
  | cons i is ih =>
    have hs : (step C s i).1.pc = .returned ∧ (step C s i).2 = none := by
      cases i with
      | irq e rx =>
        have := step_irq C s e rx
        simp [this, h]
      | orch r d => simp [step, h]
    obtain ⟨k1, k2⟩ := ih (step C s i).1 hs.1
    simp [run_cons, k1, k2, hs.2]

/-- While the completion flag is neither Success nor Error, polling a wait
changes nothing. -/
theorem wait_idle (C : DriverConsts) (s : State) (k : Nat)
    (hp : s.pc.inFlight = true) (hc : waitDone s = false) :
    run C s (polls k) = (s, []) := by
  induction k with
  | zero => rfl
  | succ k ih =>
    have hs : step C s tick = (s, none) := by
      obtain ⟨pc, cb, tx, rx, tc, rc, sa, len⟩ := s
      cases pc <;> simp_all [step, tick, PC.inFlight]
    simp [polls, List.replicate_succ, run_cons, hs] at ih ⊢
    simp [ih]

/-- `memcmp` over two four-byte buffers is zero exactly when they are equal. -/
theorem memcmp4_eq_zero_iff (a b : Buf4) :
    memcmp a.toList b.toList 4 = 0 ↔ a = b := by
  obtain ⟨a0, a1, a2, a3⟩ := a
  obtain ⟨b0, b1, b2, b3⟩ := b
  simp only [Buf4.toList, memcmp, Buf4.mk.injEq]
  constructor
  · intro h
    split_ifs at h with h0 h1 h2 h3
    all_goals omega
  · rintro ⟨rfl, rfl, rfl, rfl⟩
    simp

theorem step_irq_completes (C : DriverConsts) (s : State) (e : Nat) (rx : Option Buf4)
    (hb : completes C e) :
    (step C s (.irq e rx)).1 =
      { s with cb_event := outcome C e, rx_data := rxAfter rx s.rx_data } := by
  unfold completes at hb
  cases rx <;> simp only [step, I3C_callback, outcome, rxAfter] <;> split_ifs <;> simp_all

/-- A wait with the flag still Pending: `k` idle polls, then the completion
interrupt, then the poll that sees the outcome and leaves the loop. -/
theorem await (C : DriverConsts) (s : State) (k e : Nat) (rx : Option Buf4)
    (hp : s.pc.inFlight = true) (hc : waitDone s = false) (hb : completes C e) :
    run C s (polls k ++ [.irq e rx, tick]) =
      ({ s with pc := s.pc.afterWait, cb_event := outcome C e,
                rx_data := rxAfter rx s.rx_data }, []) := by
  rw [run_append, wait_idle C s k hp hc]
  have h1 := step_irq_completes C s e rx hb
  have h2 := (step_irq C s e rx).2.1
  simp only [run_cons, run_nil, h1, h2]
  obtain ⟨pc, cb, tx, rxd, tc, rc, sa, len⟩ := s
  have ho : outcome C e = 1 ∨ outcome C e = 2 := by
    unfold outcome; split_ifs <;> simp [I3C_CB_EVENT_ERROR, I3C_CB_EVENT_SUCCESS]
  cases pc <;> simp [PC.inFlight] at hp <;>
    rcases ho with ho | ho <;>
    simp [step, tick, waitDone, PC.afterWait, ho, I3C_CB_EVENT_ERROR, I3C_CB_EVENT_SUCCESS]

theorem op_assign1 (C : DriverConsts) (s : State) (o : OpEnv)
    (h : s.pc = .clearDA1) (hb : completes C o.e) :
    run C s (opSched C o) =
      ({ s with pc := .clearDA2, cb_event := outcome C o.e,
                rx_data := rxAfter o.rx s.rx_data, slave_addr := o.da % 256 },
       [.MasterAssignDA I3C_SLV_TAR]) := by
  obtain ⟨pc, cb, tx, rxd, tc, rc, sa, len⟩ := s
  simp only at h
  subst h
  rw [opSched, run_append]
  simp only [List.cons_append, List.nil_append, run_cons, run_nil, step, tick, ne_eq,
    not_true_eq_false, if_false]
  rw [await C _ o.k o.e o.rx _ _ hb]
  · simp [PC.afterWait]
  · rfl
  · rfl

theorem op_assign2 (C : DriverConsts) (s : State) (o : OpEnv)
    (h : s.pc = .clearDA2) (hb : completes C o.e) :
    run C s (opSched C o) =
      ({ s with pc := .checkDA2, cb_event := outcome C o.e,
                rx_data := rxAfter o.rx s.rx_data, slave_addr := o.da % 256 },
       [.MasterAssignDA I3C_SLV_TAR]) := by
  obtain ⟨pc, cb, tx, rxd, tc, rc, sa, len⟩ := s
  simp only at h
  subst h
  rw [opSched, run_append]
  simp only [List.cons_append, List.nil_append, run_cons, run_nil, step, tick, ne_eq,
    not_true_eq_false, if_false]
  rw [await C _ o.k o.e o.rx _ _ hb]
  · simp [PC.afterWait]
  · rfl
  · rfl

theorem op_transmit (C : DriverConsts) (s : State) (o : OpEnv)
    (h : s.pc = .clearTx) (hb : completes C o.e) :
    run C s (opSched C o) =
      ({ s with pc := .checkTx, cb_event := outcome C o.e,
                rx_data := rxAfter o.rx s.rx_data },
       [.MasterTransmit s.slave_addr s.tx_data s.len]) := by
  obtain ⟨pc, cb, tx, rxd, tc, rc, sa, len⟩ := s
  simp only at h
  subst h
  rw [opSched, run_append]
  simp only [List.cons_append, List.nil_append, run_cons, run_nil, step, tick, ne_eq,
    not_true_eq_false, if_false]
  rw [await C _ o.k o.e o.rx _ _ hb]
  · simp [PC.afterWait]
  · rfl
  · rfl

theorem op_receive (C : DriverConsts) (s : State) (o : OpEnv)
    (h : s.pc = .clearRx) (hb : completes C o.e) :
    run C s (opSched C o) =
      ({ s with pc := .checkRx, cb_event := outcome C o.e,
                rx_data := rxAfter o.rx s.rx_data },
       [.MasterReceive s.slave_addr s.len]) := by
  obtain ⟨pc, cb, tx, rxd, tc, rc, sa, len⟩ := s
  simp only at h
  subst h
  rw [opSched, run_append]
  simp only [List.cons_append, List.nil_append, run_cons, run_nil, step, tick, ne_eq,
    not_true_eq_false, if_false]
  rw [await C _ o.k o.e o.rx _ _ hb]
  · simp [PC.afterWait]
  · rfl
  · rfl

theorem handshake_run (C : DriverConsts) (s : State) (rc : Int) (o1 o2 : OpEnv)
    (h : s.pc = .start) (h1 : completes C o1.e) (h2 : completes C o2.e) :
    run C s (handshake C rc o1 o2) =
      ({ s with pc := if o2.e &&& C.ARM_I3C_EVENT_TRANSFER_ERROR ≠ 0 then .halt else .loopFill,
                cb_event := outcome C o2.e,
                rx_data := rxAfter o2.rx (rxAfter o1.rx s.rx_data),
                slave_addr := o2.da % 256 },
       [.GetVersion, .HardwareInit, .InitializeDrv, .PowerControl .ARM_POWER_FULL, .Control,
        .MasterAssignDA I3C_SLV_TAR, .MasterAssignDA I3C_SLV_TAR]) := by
  obtain ⟨pc, cb, tx, rxd, tc, rc, sa, len⟩ := s
  simp only at h
  subst h
  rw [handshake, run_append]
  simp only [run_cons, run_nil, step, tick, ne_eq, not_true_eq_false, if_false]
  rw [run_append, op_assign1 C _ o1 rfl h1, run_append, op_assign2 C _ o2 rfl h2]
  simp only [run_cons, run_nil, step, outcome, I3C_CB_EVENT_ERROR, I3C_CB_EVENT_SUCCESS]
  split_ifs <;> simp_all

theorem succeeds_completes {C : DriverConsts} {e : Nat} (h : succeeds C e) : completes C e :=
  Or.inl h.1

theorem succeeds_outcome {C : DriverConsts} {e : Nat} (h : succeeds C e) :
    outcome C e = I3C_CB_EVENT_SUCCESS := by
  simp [outcome, h.2]

theorem error_completes {C : DriverConsts} {e : Nat}
    (h : e &&& C.ARM_I3C_EVENT_TRANSFER_ERROR ≠ 0) : completes C e :=
  Or.inr h

theorem error_outcome {C : DriverConsts} {e : Nat}
    (h : e &&& C.ARM_I3C_EVENT_TRANSFER_ERROR ≠ 0) : outcome C e = I3C_CB_EVENT_ERROR := by
  simp [outcome, h]

theorem tx_half (C : DriverConsts) (s : State) (o : OpEnv)
    (h : s.pc = .loopFill) (hb : completes C o.e) :
    run C s (txSched C o) =
      ({ s with pc := if o.e &&& C.ARM_I3C_EVENT_TRANSFER_ERROR ≠ 0 then .halt else .incTx,
                cb_event := outcome C o.e, tx_data := s.tx_data.incr, len := 4,
                rx_data := rxAfter o.rx s.rx_data },
       [.MasterTransmit s.slave_addr s.tx_data.incr 4]) := by
  obtain ⟨pc, cb, tx, rxd, tc, rc, sa, len⟩ := s
  simp only at h
  subst h
  rw [txSched, run_cons]
  simp only [step, tick]
  rw [run_append, op_transmit C _ o rfl hb]
  simp only [run_cons, run_nil, step, outcome, I3C_CB_EVENT_ERROR, I3C_CB_EVENT_SUCCESS]
  split_ifs <;> simp_all

theorem rx_half (C : DriverConsts) (s : State) (o : OpEnv)
    (h : s.pc = .incTx) (hb : completes C o.e) :
    run C s (rxSched C o) =
      ({ s with
          pc := if o.e &&& C.ARM_I3C_EVENT_TRANSFER_ERROR ≠ 0 then .halt
                else if memcmp s.tx_data.toList (rxAfter o.rx Buf4.zero).toList s.len ≠ 0
                then .halt else .loopFill,
          cb_event := outcome C o.e,
          tx_cnt := (s.tx_cnt + 1) % 2 ^ 32,
          rx_data := rxAfter o.rx Buf4.zero,
          rx_cnt := if o.e &&& C.ARM_I3C_EVENT_TRANSFER_ERROR ≠ 0 then s.rx_cnt
                    else (s.rx_cnt + 1) % 2 ^ 32 },
       [.MasterReceive s.slave_addr s.len]) := by
  obtain ⟨pc, cb, tx, rxd, tc, rc, sa, len⟩ := s
  simp only at h
  subst h
  rw [rxSched, run_cons]
  simp only [step, tick]
  rw [run_append, op_receive C _ o rfl hb]
  simp only [run_cons, run_nil, step, outcome, I3C_CB_EVENT_ERROR, I3C_CB_EVENT_SUCCESS]
  split_ifs <;> simp_all

/-- A loop iteration in which transmit and receive are accepted and complete
with Success: the buffer is incremented and sent, both counters advance, and
the iteration ends at the loop head if the received bytes equal the sent ones
and in `while(1);` otherwise. -/
theorem iter_run (C : DriverConsts) (s : State) (o1 o2 : OpEnv)
    (h : s.pc = .loopFill) (h1 : succeeds C o1.e) (h2 : succeeds C o2.e) :
    run C s (iterSched C o1 o2) =
      ({ s with pc := if rxAfter o2.rx Buf4.zero = s.tx_data.incr then .loopFill else .halt,
                cb_event := I3C_CB_EVENT_SUCCESS,
                tx_data := s.tx_data.incr,
                rx_data := rxAfter o2.rx Buf4.zero,
                tx_cnt := (s.tx_cnt + 1) % 2 ^ 32,
                rx_cnt := (s.rx_cnt + 1) % 2 ^ 32,
                len := 4 },
       [.MasterTransmit s.slave_addr s.tx_data.incr 4, .MasterReceive s.slave_addr 4]) := by
  rw [iterSched, run_append, tx_half C s o1 h (succeeds_completes h1)]
  simp only [h1.2, ne_eq, not_true_eq_false, if_false]
  rw [rx_half C _ o2 rfl (succeeds_completes h2)]
  simp only [h2.2, ne_eq, not_true_eq_false, if_false, succeeds_outcome h2,
    memcmp4_eq_zero_iff]
  by_cases hq : rxAfter o2.rx Buf4.zero = s.tx_data.incr
  · simp [hq]
  · have hq2 : ¬ s.tx_data.incr = rxAfter o2.rx Buf4.zero := fun h => hq h.symm
    simp [hq, hq2]

theorem txOf_succ (n : Nat) : (txOf n).incr = txOf (n + 1) := by
  simp only [txOf, Buf4.incr, Buf4.mk.injEq]
  omega

theorem incr_wrap (b : Buf4) : b.incr.wrap = b.incr := by
  simp [Buf4.incr, Buf4.wrap]

theorem echo_iter (C : DriverConsts) (s : State) (o1 o2 : OpEnv)
    (h : s.pc = .loopFill) (h1 : succeeds C o1.e) (h2 : succeeds C o2.e) :
    echoIter C o1 o2 s =
      ({ pc := .loopFill, cb_event := I3C_CB_EVENT_SUCCESS,
         tx_data := s.tx_data.incr, rx_data := s.tx_data.incr,
         tx_cnt := (s.tx_cnt + 1) % 2 ^ 32, rx_cnt := (s.rx_cnt + 1) % 2 ^ 32,
         slave_addr := s.slave_addr, len := 4 },
       [.MasterTransmit s.slave_addr s.tx_data.incr 4, .MasterReceive s.slave_addr 4]) := by
  have hrun := iter_run C s o1 { o2 with rx := some s.tx_data.incr } h h1 h2
  rw [iterSched, run_append] at hrun
  have htx := tx_half C s o1 h (succeeds_completes h1)
  have hl : lastTransmitted (run C s (txSched C o1)).2 = some s.tx_data.incr := by
    rw [htx]; rfl
  rw [echoIter, hl, hrun]
  simp [rxAfter, incr_wrap]

theorem echoRun_inv (C : DriverConsts) (env : Nat → OpEnv × OpEnv) (s : State)
    (h : s.pc = .loopFill) (ht : s.tx_data = txOf 0) (htc : s.tx_cnt = 0) (hrc : s.rx_cnt = 0)
    (he : ∀ i, succeeds C (env i).1.e ∧ succeeds C (env i).2.e) (n : Nat) :
    (echoRun C env n s).pc = .loopFill ∧ (echoRun C env n s).tx_data = txOf n ∧
    (echoRun C env n s).tx_cnt = n % 2 ^ 32 ∧ (echoRun C env n s).rx_cnt = n % 2 ^ 32 ∧
    (echoRun C env n s).slave_addr = s.slave_addr := by
  induction n with
  | zero => simp [echoRun, h, ht, htc, hrc]
  | succ n ih =>
    obtain ⟨i1, i2, i3, i4, i5⟩ := ih
    rw [echoRun, echo_iter C _ _ _ i1 (he (n + 1)).1 (he (n + 1)).2]
    refine ⟨rfl, ?_, ?_, ?_, i5⟩
    · show (echoRun C env n s).tx_data.incr = txOf (n + 1)
      rw [i2, txOf_succ]
    · show ((echoRun C env n s).tx_cnt + 1) % 2 ^ 32 = (n + 1) % 2 ^ 32
      rw [i3]; omega
    · show ((echoRun C env n s).rx_cnt + 1) % 2 ^ 32 = (n + 1) % 2 ^ 32
      rw [i4]; omega

/-- An accepted operation whose completion event carries the error bit, from
the clearing of the flag to the test of the outcome, and any inputs after. -/
theorem error_outcome_halts (C : DriverConsts) (s : State) (o : OpEnv) (rest : List Input)
    (hpc : s.pc = .clearDA2 ∨ s.pc = .clearTx ∨ s.pc = .clearRx)
    (he : o.e &&& C.ARM_I3C_EVENT_TRANSFER_ERROR ≠ 0) :
    (run C s (opSched C o ++ tick :: rest)).1.pc = .halt ∧
    (run C s (opSched C o ++ tick :: rest)).2 = [issuedAfterClear s] ∧
    (run C s (opSched C o ++ tick :: rest)).1.tx_cnt = s.tx_cnt ∧
    (run C s (opSched C o ++ tick :: rest)).1.rx_cnt = s.rx_cnt := by
  have hb := error_completes he
  have ho := error_outcome he
  rw [run_append, run_cons]
  rcases hpc with h | h | h
  · rw [op_assign2 C s o h hb, ho]
    have h1 : ∀ t : State, t.pc = .checkDA2 → t.cb_event = I3C_CB_EVENT_ERROR →
        step C t tick = ({ t with pc := .halt }, none) := by
      intro t ht hc; simp [step, ht, hc]
    rw [h1 _ rfl rfl]
    obtain ⟨k1, k2, k3, k4⟩ := halt_forever C
      { s with pc := .halt, cb_event := I3C_CB_EVENT_ERROR,
               rx_data := rxAfter o.rx s.rx_data, slave_addr := o.da % 256 } rfl rest
    simp [k1, k2, k3, k4, issuedAfterClear, h]
  · rw [op_transmit C s o h hb, ho]
    have h1 : ∀ t : State, t.pc = .checkTx → t.cb_event = I3C_CB_EVENT_ERROR →
        step C t tick = ({ t with pc := .halt }, none) := by
      intro t ht hc; simp [step, ht, hc]
    rw [h1 _ rfl rfl]
    obtain ⟨k1, k2, k3, k4⟩ := halt_forever C
      { s with pc := .halt, cb_event := I3C_CB_EVENT_ERROR,
               rx_data := rxAfter o.rx s.rx_data } rfl rest
    simp [k1, k2, k3, k4, issuedAfterClear, h]
  · rw [op_receive C s o h hb, ho]
    have h1 : ∀ t : State, t.pc = .checkRx → t.cb_event = I3C_CB_EVENT_ERROR →
        step C t tick = ({ t with pc := .halt }, none) := by
      intro t ht hc; simp [step, ht, hc]
    rw [h1 _ rfl rfl]
    obtain ⟨k1, k2, k3, k4⟩ := halt_forever C
      { s with pc := .halt, cb_event := I3C_CB_EVENT_ERROR,
               rx_data := rxAfter o.rx s.rx_data } rfl rest
    simp [k1, k2, k3, k4, issuedAfterClear, h]

/-- A transmit or receive request that the driver rejects: the orchestrator
jumps to `error_poweroff`, powers the peripheral down, shuts the driver down
and returns, whatever the two clean-up calls return. -/
theorem rejected_request_unwinds (C : DriverConsts) (s : State) (r r2 r3 : Int)
    (d d2 d3 : Nat) (rest : List Input)
    (hpc : s.pc = .transmit ∨ s.pc = .receive) (hr : r ≠ C.ARM_DRIVER_OK) :
    (run C s (.orch r d :: .orch r2 d2 :: .orch r3 d3 :: rest)).1.pc = .returned ∧
    (run C s (.orch r d :: .orch r2 d2 :: .orch r3 d3 :: rest)).2 =
      [if s.pc = .transmit then .MasterTransmit s.slave_addr s.tx_data s.len
       else .MasterReceive s.slave_addr s.len,
       .PowerControl .ARM_POWER_OFF, .UninitializeDrv] := by
  obtain ⟨pc, cb, tx, rxd, tc, rc, sa, len⟩ := s
  rcases hpc with h | h <;> simp only at h <;> subst h
  · simp only [run_cons, step, hr, ne_eq, not_false_eq_true, if_true]
    obtain ⟨k1, k2⟩ := returned_forever C
      { pc := .returned, cb_event := cb, tx_data := tx, rx_data := rxd, tx_cnt := tc,
        rx_cnt := rc, slave_addr := sa, len := len } rfl rest
    simp [k1, k2]
  · simp only [run_cons, step, hr, ne_eq, not_false_eq_true, if_true]
    obtain ⟨k1, k2⟩ := returned_forever C
      { pc := .returned, cb_event := cb, tx_data := tx, rx_data := rxd, tx_cnt := tc,
        rx_cnt := rc, slave_addr := sa, len := len } rfl rest
    simp [k1, k2]

theorem step_issues_only_at (C : DriverConsts) (s : State) (i : Input) (c : Call)
    (hc : (step C s i).2 = some c) (hb : c.isBusOp = true) :
    s.pc.issues = true ∧
    ((step C s i).1.pc.inFlight = true ∨ (step C s i).1.pc = .powerOff) := by
  cases i with
  | irq e rx => simp [step] at hc
  | orch r d =>
    obtain ⟨pc, cb, tx, rxd, tc, rc, sa, len⟩ := s
    cases pc <;> simp only [step] at hc ⊢ <;> simp at hc <;> subst hc <;>
      simp [Call.isBusOp] at hb <;> simp [PC.issues] <;> split_ifs <;> simp [PC.inFlight]

theorem disciplined_flag_clear (C : DriverConsts) (s : State) (h : Disciplined C s)
    (hp : s.pc.issues = true) : s.cb_event = 0 := by
  induction h with
  | entry => simp [initState, PC.issues] at hp
  | orch s r d _ _ =>
    obtain ⟨pc, cb, tx, rxd, tc, rc, sa, len⟩ := s
    cases pc <;> simp only [step] at hp ⊢ <;> (try split_ifs at hp) <;>
      simp [PC.issues] at hp ⊢
  | irq s e rx _ hw _ =>
    have h1 := (step_irq C s e rx).1
    rw [h1] at hp
    cases hpc : s.pc <;> simp [hpc, PC.issues, PC.inFlight] at hp hw

theorem pastBus_step (C : DriverConsts) (s : State) (i : Input) (h : s.pc.pastBus = true) :
    (step C s i).1.pc.pastBus = true ∧ ∀ c, (step C s i).2 = some c → c.isBusOp = false := by
  cases i with
  | irq e rx =>
    have h1 := step_irq C s e rx
    simp [h1.1, h1.2.1, h]
  | orch r d =>
    obtain ⟨pc, cb, tx, rxd, tc, rc, sa, len⟩ := s
    cases pc <;> simp [PC.pastBus] at h <;> simp [step, PC.pastBus, Call.isBusOp]

theorem pastBus_run (C : DriverConsts) (s : State) (is : List Input)
    (h : s.pc.pastBus = true) : ∀ c ∈ (run C s is).2, c.isBusOp = false := by
  induction is generalizing s with
  | nil => simp [run_nil]
  | cons i is ih =>
    obtain ⟨h1, h2⟩ := pastBus_step C s i h
    intro c hc
    rw [run_cons] at hc
    simp only [List.mem_append] at hc
    rcases hc with hc | hc
    · cases hs : (step C s i).2 with
      | none => simp [hs] at hc
      | some c' =>
        simp [hs] at hc
        subst hc
        exact h2 _ hs
    · exact ih _ h1 c hc

theorem wait_step (C : DriverConsts) (s : State) (i : Input) (h : s.pc.inFlight = true) :
    (step C s i).2 = none ∧
    ((step C s i).1.pc = s.pc ∨
      ((s.cb_event = I3C_CB_EVENT_SUCCESS ∨ s.cb_event = I3C_CB_EVENT_ERROR) ∧
        (step C s i).1.pc = s.pc.afterWait)) := by
  cases i with
  | irq e rx =>
    have h1 := step_irq C s e rx
    simp [h1.1, h1.2.1]
  | orch r d =>
    obtain ⟨pc, cb, tx, rxd, tc, rc, sa, len⟩ := s
    cases pc <;> simp [PC.inFlight] at h <;> simp only [step, waitDone] <;>
      split_ifs with hw <;> simp_all [PC.afterWait]

theorem disciplined_run (C : DriverConsts) (s : State) (is : List Input)
    (h : Disciplined C s) (ha : admissible C s is = true) : Disciplined C (run C s is).1 := by
  induction is generalizing s with
  | nil => exact h
  | cons i is ih =>
    rw [run_cons]
    simp only [admissible, Bool.and_eq_true] at ha
    apply ih _ _ ha.2
    cases i with
    | irq e rx => exact .irq s e rx h ha.1
    | orch r d => exact .orch s r d h

theorem disciplined_op (C : DriverConsts) (s : State) (o : OpEnv) (h : Disciplined C s)
    (hpc : s.pc = .clearDA1 ∨ s.pc = .clearDA2 ∨ s.pc = .clearTx ∨ s.pc = .clearRx) :
    Disciplined C (run C s (opSched C o)).1 := by
  have h2 : Disciplined C (step C (step C s tick).1 (.orch C.ARM_DRIVER_OK o.da)).1 :=
    .orch _ _ _ (.orch s 0 0 h)
  have hw : (step C (step C s tick).1 (.orch C.ARM_DRIVER_OK o.da)).1.pc.inFlight = true ∧
      waitDone (step C (step C s tick).1 (.orch C.ARM_DRIVER_OK o.da)).1 = false := by
    obtain ⟨pc, cb, tx, rxd, tc, rc, sa, len⟩ := s
    rcases hpc with h | h | h | h <;> simp only at h <;> subst h <;>
      simp [step, tick, PC.inFlight, waitDone, I3C_CB_EVENT_SUCCESS, I3C_CB_EVENT_ERROR]
  rw [opSched, run_append]
  simp only [run_cons, run_nil]
  rw [run_append, wait_idle C _ o.k hw.1 hw.2]
  simp only [run_cons, run_nil]
  exact .orch _ 0 0 (.irq _ o.e o.rx h2 hw.1)

theorem disciplined_echoIter (C : DriverConsts) (s : State) (o1 o2 : OpEnv)
    (h : Disciplined C s) (hpc : s.pc = .loopFill) (h1 : succeeds C o1.e) :
    Disciplined C (echoIter C o1 o2 s).1 := by
  have a1 : Disciplined C (run C s (txSched C o1)).1 := by
    rw [txSched, run_cons, run_append]
    simp only [run_cons, run_nil]
    refine .orch _ 0 0 (disciplined_op C _ o1 (.orch s 0 0 h) ?_)
    obtain ⟨pc, cb, tx, rxd, tc, rc, sa, len⟩ := s
    simp only at hpc
    subst hpc
    simp [step, tick]
  have a2 : (run C s (txSched C o1)).1.pc = .incTx := by
    rw [tx_half C s o1 hpc (succeeds_completes h1)]
    simp [h1.2]
  rw [echoIter]
  simp only
  generalize (run C s (txSched C o1)).1 = t at a1 a2
  generalize ({ o2 with rx := lastTransmitted (run C s (txSched C o1)).2 } : OpEnv) = o
  rw [rxSched, run_cons, run_append]
  simp only [run_cons, run_nil]
  refine .orch _ 0 0 (.orch _ 0 0 (disciplined_op C _ o (.orch t 0 0 a1) ?_))
  obtain ⟨pc, cb, tx, rxd, tc, rc, sa, len⟩ := t
  simp only at a2
  subst a2
  simp [step, tick]

theorem disciplined_echoRun (C : DriverConsts) (env : Nat → OpEnv × OpEnv) (s : State)
    (h : Disciplined C s)
    (hpc : s.pc = .loopFill) (ht : s.tx_data = txOf 0) (htc : s.tx_cnt = 0) (hrc : s.rx_cnt = 0)
    (he : ∀ i, succeeds C (env i).1.e ∧ succeeds C (env i).2.e) (n : Nat) :
    Disciplined C (echoRun C env n s) := by
  induction n with
  | zero => exact h
  | succ n ih =>
    rw [echoRun]
    exact disciplined_echoIter C _ _ _ ih
      (echoRun_inv C env s hpc ht htc hrc he n).1 (he (n + 1)).1

theorem disciplined_loopEntry : Disciplined sampleConsts loopEntry :=
  disciplined_run sampleConsts initState _ .entry (by decide)

theorem echoRun_succ_eq (C : DriverConsts) (env : Nat → OpEnv × OpEnv) (s : State)
    (h : s.pc = .loopFill) (ht : s.tx_data = txOf 0) (htc : s.tx_cnt = 0) (hrc : s.rx_cnt = 0)
    (he : ∀ i, succeeds C (env i).1.e ∧ succeeds C (env i).2.e) (m : Nat) :
    echoRun C env (m + 1) s =
      { pc := .loopFill, cb_event := I3C_CB_EVENT_SUCCESS,
        tx_data := txOf (m + 1), rx_data := txOf (m + 1),
        tx_cnt := (m + 1) % 2 ^ 32, rx_cnt := (m + 1) % 2 ^ 32,
        slave_addr := s.slave_addr, len := 4 } := by
  obtain ⟨i1, i2, i3, i4, i5⟩ := echoRun_inv C env s h ht htc hrc he m
  have key := echo_iter C (echoRun C env m s) (env (m + 1)).1 (env (m + 1)).2 i1
    (he (m + 1)).1 (he (m + 1)).2
  rw [i2, i3, i4, i5, txOf_succ] at key
  have e1 : (m % 2 ^ 32 + 1) % 2 ^ 32 = (m + 1) % 2 ^ 32 := by omega
  rw [e1] at key
  rw [echoRun, key]

theorem disciplined_wrapState : Disciplined sampleConsts wrapState := by
  have hs : ∀ i, succeeds sampleConsts (promptEnv i).1.e ∧
      succeeds sampleConsts (promptEnv i).2.e :=
    fun _ => ⟨(by decide : succeeds sampleConsts 1), (by decide : succeeds sampleConsts 1)⟩
  have hD := disciplined_echoRun sampleConsts promptEnv loopEntry disciplined_loopEntry
    (by decide) (by decide) (by decide) (by decide) hs (4294967294 + 1)
  rw [echoRun_succ_eq sampleConsts promptEnv loopEntry (by decide) (by decide) (by decide)
    (by decide) hs 4294967294] at hD
  have hR := disciplined_run sampleConsts _ (txSched sampleConsts ⟨0, 0, 1, none⟩) hD
    (by decide)
  have hE : (run sampleConsts
      { pc := .loopFill, cb_event := I3C_CB_EVENT_SUCCESS,
        tx_data := txOf (4294967294 + 1), rx_data := txOf (4294967294 + 1),
        tx_cnt := (4294967294 + 1) % 2 ^ 32, rx_cnt := (4294967294 + 1) % 2 ^ 32,
        slave_addr := loopEntry.slave_addr, len := 4 }
      (txSched sampleConsts ⟨0, 0, 1, none⟩)).1 = wrapState := by decide
  rw [hE] at hR
  exact hR

theorem pastBus_no_tx (C : DriverConsts) (s : State) (is : List Input)
    (h : s.pc.pastBus = true) : ((run C s is).2.any Call.isTx) = false := by
  have := pastBus_run C s is h
  rw [List.any_eq_false]
  intro c hc
  have hb := this c hc
  cases c <;> simp_all [Call.isBusOp, Call.isTx]

theorem beforeTx_of_preTx (C : DriverConsts) (is : List Input) :
    ∀ s : State, s.pc.preTx = true → ((run C s is).2.any Call.isTx) = true →
      beforeTx (run C s is).2 = s.pc.dueBeforeTx := by
  induction is with
  | nil => intro s _ h; simp [run_nil] at h
  | cons i is ih =>
    intro s hp hx
    rw [run_cons] at hx ⊢
    cases i with
    | irq e rx =>
      have h1 := step_irq C s e rx
      rw [h1.2.1] at hx ⊢
      simp only [Option.toList, List.nil_append] at hx ⊢
      have := ih (step C s (.irq e rx)).1 (by rw [h1.1]; exact hp) hx
      rw [this, h1.1]
    | orch r d =>
      obtain ⟨pc, cb, tx, rxd, tc, rc, sa, len⟩ := s
      cases pc <;> simp only [PC.preTx] at hp <;> try (exact absurd hp (by decide))
      all_goals
        simp only [step] at hx ⊢
        try split_ifs at hx ⊢
        all_goals
          simp only [Option.toList, List.cons_append, List.nil_append, List.any_cons,
            List.append_eq,
            Call.isTx, Bool.false_or, Bool.true_or, beforeTx, if_true, if_false,
            Bool.false_eq_true] at hx ⊢
          first
            | rfl
            | (rw [pastBus_no_tx C _ is (by rfl)] at hx; exact absurd hx (by decide))
            | (rw [ih _ (by rfl) hx]; try rfl)

/-- The test of an outcome (lines 277, 312, 343) with the flag at Error: the
orchestrator enters `while(1);` and nothing happens afterwards. -/
theorem check_error_halts (C : DriverConsts) (t : State) (r : Int) (d : Nat)
    (rest : List Input)
    (hpc : t.pc = .checkDA2 ∨ t.pc = .checkTx ∨ t.pc = .checkRx)
    (hc : t.cb_event = I3C_CB_EVENT_ERROR) :
    (run C t (.orch r d :: rest)).1.pc = .halt ∧ (run C t (.orch r d :: rest)).2 = [] ∧
    (run C t (.orch r d :: rest)).1.tx_cnt = t.tx_cnt ∧
    (run C t (.orch r d :: rest)).1.rx_cnt = t.rx_cnt := by
  have hs : step C t (.orch r d) = ({ t with pc := .halt }, none) := by
    rcases hpc with h | h | h <;> simp [step, h, hc]
  obtain ⟨k1, k2, k3, k4⟩ := halt_forever C { t with pc := .halt } rfl rest
  rw [run_cons, hs]
  simp [k1, k2, k3, k4]

/-- The comparison (lines 349-357) on four bytes: unequal buffers lead to
`while(1);` for good, equal buffers back to the loop head. -/
theorem compare_decides (C : DriverConsts) (t : State) (r : Int) (d : Nat)
    (rest : List Input) (hpc : t.pc = .compare) (hl : t.len = 4) :
    (t.rx_data ≠ t.tx_data →
      (run C t (.orch r d :: rest)).1.pc = .halt ∧ (run C t (.orch r d :: rest)).2 = []) ∧
    (t.rx_data = t.tx_data → (step C t (.orch r d)).1.pc = .loopFill) := by
  constructor
  · intro hne
    have hne2 : ¬ t.tx_data = t.rx_data := fun h => hne h.symm
    have hs : step C t (.orch r d) =
        ({ t with pc := .halt, rx_cnt := (t.rx_cnt + 1) % 2 ^ 32 }, none) := by
      simp [step, hpc, hl, memcmp4_eq_zero_iff, hne2]
    obtain ⟨k1, k2, -, -⟩ := halt_forever C
      { t with pc := .halt, rx_cnt := (t.rx_cnt + 1) % 2 ^ 32 } rfl rest
    rw [run_cons, hs]
    exact ⟨k1, by rw [k2]; rfl⟩
  · intro heq
    simp [step, hpc, hl, memcmp4_eq_zero_iff, heq]

/-! ## The completion callback -/

/-- C9: `I3C_callback` translates the notification word into the completion
flag and touches nothing else. For every event and prior state the flag becomes
Error (2) when the error bit is set (also when the done bit is set as well),
else Success (1) when the done bit is set, else it keeps its value; the buffers
and the counters are unchanged; and an event with at least one of the two bits
leaves the flag at Success or Error, never at Pending (0). -/
theorem I3C_callback_translates (C : DriverConsts) (event : Nat) (s : State) :
    I3C_callback C event s =
      { s with cb_event :=
          if event &&& C.ARM_I3C_EVENT_TRANSFER_ERROR ≠ 0 then I3C_CB_EVENT_ERROR
          else if event &&& C.ARM_I3C_EVENT_TRANSFER_DONE ≠ 0 then I3C_CB_EVENT_SUCCESS
          else s.cb_event } ∧
    I3C_CB_EVENT_SUCCESS = 1 ∧ I3C_CB_EVENT_ERROR = 2 ∧
    (I3C_callback C event s).tx_data = s.tx_data ∧
    (I3C_callback C event s).rx_data = s.rx_data ∧
    (I3C_callback C event s).tx_cnt = s.tx_cnt ∧
    (I3C_callback C event s).rx_cnt = s.rx_cnt ∧
    ((event &&& C.ARM_I3C_EVENT_TRANSFER_DONE ≠ 0 ∨
        event &&& C.ARM_I3C_EVENT_TRANSFER_ERROR ≠ 0) →
      ((I3C_callback C event s).cb_event = 1 ∨ (I3C_callback C event s).cb_event = 2) ∧
      (I3C_callback C event s).cb_event ≠ 0) := by
  simp only [I3C_callback, I3C_CB_EVENT_ERROR, I3C_CB_EVENT_SUCCESS]
  split_ifs <;> simp_all

/-- The callback on an event carrying both bits, from the entry state whose
flag is Pending: the flag ends at Error. -/
theorem I3C_callback_translates_witness :
    ((3 &&& sampleConsts.ARM_I3C_EVENT_TRANSFER_DONE ≠ 0 ∨
        3 &&& sampleConsts.ARM_I3C_EVENT_TRANSFER_ERROR ≠ 0)) ∧
    ((I3C_callback sampleConsts 3 initState).cb_event = 1 ∨
      (I3C_callback sampleConsts 3 initState).cb_event = 2) ∧
    (I3C_callback sampleConsts 3 initState).cb_event ≠ 0 :=
  ⟨by decide,
   (I3C_callback_translates sampleConsts 3 initState).2.2.2.2.2.2.2 (by decide)⟩

/-! ## Address assignment -/

/-- C1: in every run in which pin set-up, driver start and power-up succeed and
both `MasterAssignDA` requests are accepted, whatever the bus-configuration call
returns and whichever outcome (Success or Error) each round completes with,
the calls issued up to the test of the second outcome are exactly the five
set-up calls followed by two `MasterAssignDA` requests for static address 0x48
(no transmit among them), and the orchestrator then halts when the second
round's event carries the error bit and enters the loop otherwise: the first
round's outcome plays no part. Moreover, in every run from the entry, under any
inputs at all, if a `MasterTransmit` is issued then the calls before the first
one are exactly those seven, two `MasterAssignDA` for 0x48 among them. -/
theorem assign_twice_second_outcome_decides (C : DriverConsts) (s : State) (rc : Int)
    (o1 o2 : OpEnv) (h : s.pc = .start) (h1 : completes C o1.e) (h2 : completes C o2.e) :
    (run C s (handshake C rc o1 o2)).2 =
      [.GetVersion, .HardwareInit, .InitializeDrv, .PowerControl .ARM_POWER_FULL, .Control,
       .MasterAssignDA 0x48, .MasterAssignDA 0x48] ∧
    (run C s (handshake C rc o1 o2)).1.pc =
      (if o2.e &&& C.ARM_I3C_EVENT_TRANSFER_ERROR ≠ 0 then PC.halt else PC.loopFill) ∧
    (∀ is : List Input, (run C s is).2.any Call.isTx = true →
      beforeTx (run C s is).2 =
        [.GetVersion, .HardwareInit, .InitializeDrv, .PowerControl .ARM_POWER_FULL, .Control,
         .MasterAssignDA 0x48, .MasterAssignDA 0x48]) := by
  rw [handshake_run C s rc o1 o2 h h1 h2]
  refine ⟨rfl, rfl, fun is hx => ?_⟩
  rw [beforeTx_of_preTx C is s (by rw [h]; rfl) hx, h]
  rfl

/-- First round ends in Error, second in Success, bus configuration fails: two
assignment requests, and the loop is entered. -/
theorem assign_twice_second_outcome_decides_witness :
    (run sampleConsts initState
        (handshake sampleConsts (-1) ⟨0, 2, 2, none⟩ ⟨9, 1, 1, none⟩)).2 =
      [.GetVersion, .HardwareInit, .InitializeDrv, .PowerControl .ARM_POWER_FULL, .Control,
       .MasterAssignDA 0x48, .MasterAssignDA 0x48] ∧
    (run sampleConsts initState
        (handshake sampleConsts (-1) ⟨0, 2, 2, none⟩ ⟨9, 1, 1, none⟩)).1.pc = PC.loopFill :=
  ⟨(assign_twice_second_outcome_decides sampleConsts initState (-1) ⟨0, 2, 2, none⟩
      ⟨9, 1, 1, none⟩ rfl (by decide) (by decide)).1,
   (assign_twice_second_outcome_decides sampleConsts initState (-1) ⟨0, 2, 2, none⟩
      ⟨9, 1, 1, none⟩ rfl (by decide) (by decide)).2.1⟩

/-! ## One operation at a time -/

/-- C2: the single-outstanding-operation discipline. In every state reachable
with callbacks delivered only during a completion wait: (a) whenever a step
issues `MasterAssignDA`, `MasterTransmit` or `MasterReceive`, the flag
`cb_event` is 0 at that moment and the orchestrator is not in a wait; the step
leaves it either in the wait for that very operation, or (request rejected) on
the clean-up path, from which no bus operation is issued under any further
input; (b) while the orchestrator is in a wait no step issues any call, and a
step leaves the wait only when it reads the flag as Success (1) or Error (2). -/
theorem one_operation_at_a_time (C : DriverConsts) (s : State) (h : Disciplined C s) :
    (∀ i c, (step C s i).2 = some c → c.isBusOp = true →
      s.cb_event = 0 ∧ s.pc.inFlight = false ∧
      ((step C s i).1.pc.inFlight = true ∨
        ((step C s i).1.pc = .powerOff ∧
          ∀ is, ∀ c2 ∈ (run C (step C s i).1 is).2, c2.isBusOp = false))) ∧
    (s.pc.inFlight = true → ∀ i,
      (step C s i).2 = none ∧
      ((step C s i).1.pc = s.pc ∨
        ((s.cb_event = 1 ∨ s.cb_event = 2) ∧ (step C s i).1.pc = s.pc.afterWait))) := by
  refine ⟨?_, ?_⟩
  · intro i c hc hb
    obtain ⟨h1, h2⟩ := step_issues_only_at C s i c hc hb
    refine ⟨disciplined_flag_clear C s h h1, ?_, ?_⟩
    · cases hpc : s.pc <;> simp [hpc, PC.issues] at h1 <;> rfl
    · rcases h2 with h2 | h2
      · exact Or.inl h2
      · exact Or.inr ⟨h2, fun is => pastBus_run C _ is (by rw [h2]; rfl)⟩
  · intro hw i
    exact wait_step C s i hw

/-- The second `MasterAssignDA`, after a first round that ended in Error: the
flag, which was 2, is 0 again when the request is issued. -/
theorem one_operation_at_a_time_witness :
    (step sampleConsts
        (run sampleConsts initState
          ([tick, tick, tick, tick, tick] ++ opSched sampleConsts ⟨7, 2, 2, none⟩ ++ [tick])).1
        (.orch 0 9)).2 = some (.MasterAssignDA 0x48) ∧
    (run sampleConsts initState
        ([tick, tick, tick, tick, tick] ++ opSched sampleConsts ⟨7, 2, 2, none⟩
          ++ [tick])).1.cb_event = 0 :=
  ⟨by decide,
   ((one_operation_at_a_time sampleConsts _
      (disciplined_run sampleConsts initState
        ([tick, tick, tick, tick, tick] ++ opSched sampleConsts ⟨7, 2, 2, none⟩ ++ [tick])
        .entry (by decide))).1 (.orch 0 9) (.MasterAssignDA 0x48) (by decide) rfl).1⟩

/-! ## The steady-state loop -/

/-- C3: round trip with an echoing peer. From a state at the loop head with
`tx_data = 00 01 02 03` and both counters zero, if in every iteration the
transmit and the receive are accepted and complete with Success and the peer
returns the bytes last transmitted, then for every `n ≥ 1` the `n`-th iteration
issues `MasterTransmit` with the four bytes `(i + n) mod 256`, then
`MasterReceive`; afterwards `rx_data` equals `tx_data` (so `memcmp` is 0), both
counters are `n mod 2^32`, and the orchestrator is back at the loop head,
neither halted nor returned. -/
theorem echo_round_trip (C : DriverConsts) (env : Nat → OpEnv × OpEnv) (s : State)
    (h : s.pc = .loopFill) (ht : s.tx_data = ⟨0x00, 0x01, 0x02, 0x03⟩)
    (htc : s.tx_cnt = 0) (hrc : s.rx_cnt = 0)
    (he : ∀ i, succeeds C (env i).1.e ∧ succeeds C (env i).2.e)
    (n : Nat) (hn : 1 ≤ n) :
    echoIter C (env n).1 (env n).2 (echoRun C env (n - 1) s) =
      ({ pc := .loopFill, cb_event := I3C_CB_EVENT_SUCCESS,
         tx_data := ⟨(0 + n) % 256, (1 + n) % 256, (2 + n) % 256, (3 + n) % 256⟩,
         rx_data := ⟨(0 + n) % 256, (1 + n) % 256, (2 + n) % 256, (3 + n) % 256⟩,
         tx_cnt := n % 2 ^ 32, rx_cnt := n % 2 ^ 32,
         slave_addr := s.slave_addr, len := 4 },
       [.MasterTransmit s.slave_addr
          ⟨(0 + n) % 256, (1 + n) % 256, (2 + n) % 256, (3 + n) % 256⟩ 4,
        .MasterReceive s.slave_addr 4]) ∧
    memcmp (echoIter C (env n).1 (env n).2 (echoRun C env (n - 1) s)).1.tx_data.toList
      (echoIter C (env n).1 (env n).2 (echoRun C env (n - 1) s)).1.rx_data.toList 4 = 0 := by
  obtain ⟨m, rfl⟩ : ∃ m, n = m + 1 := ⟨n - 1, by omega⟩
  obtain ⟨i1, i2, i3, i4, i5⟩ := echoRun_inv C env s h (by rw [ht]; rfl) htc hrc he m
  have key := echo_iter C (echoRun C env m s) (env (m + 1)).1 (env (m + 1)).2 i1
    (he (m + 1)).1 (he (m + 1)).2
  rw [i2, i3, i4, i5, txOf_succ] at key
  have e1 : (m % 2 ^ 32 + 1) % 2 ^ 32 = (m + 1) % 2 ^ 32 := by omega
  rw [e1] at key
  simp only [Nat.add_sub_cancel]
  rw [key]
  refine ⟨rfl, ?_⟩
  rw [memcmp4_eq_zero_iff]

/-- The first iteration from the state in which the loop is entered: `01 02 03
04` is sent and echoed, both counters become 1, and the loop goes on. -/
theorem echo_round_trip_witness :
    echoIter sampleConsts ⟨0, 2, 1, none⟩ ⟨0, 3, 1, none⟩
        (echoRun sampleConsts (fun _ => (⟨0, 2, 1, none⟩, ⟨0, 3, 1, none⟩)) (1 - 1)
          loopEntry) =
      ({ pc := .loopFill, cb_event := 1, tx_data := ⟨0x01, 0x02, 0x03, 0x04⟩,
         rx_data := ⟨0x01, 0x02, 0x03, 0x04⟩, tx_cnt := 1, rx_cnt := 1,
         slave_addr := 9, len := 4 },
       [.MasterTransmit 9 ⟨0x01, 0x02, 0x03, 0x04⟩ 4, .MasterReceive 9 4]) :=
  (echo_round_trip sampleConsts (fun _ => (⟨0, 2, 1, none⟩, ⟨0, 3, 1, none⟩))
    loopEntry rfl rfl rfl rfl
    (fun _ => ⟨(by decide : succeeds sampleConsts 1), (by decide : succeeds sampleConsts 1)⟩)
    1 (by decide)).1

/-- C4: a loop iteration in which transmit and receive are accepted and
complete with Success. If afterwards `rx_data` differs from `tx_data`, the
orchestrator is in `while(1);` and stays there under every further input, the
only calls of the whole run being the iteration's own `MasterTransmit` and
`MasterReceive` (no later transmit, receive, power-down or driver shutdown, and
no return). If the two buffers are equal it is back at the loop head. In
particular, when the peer stores nothing, `rx_data` is all zero and the
orchestrator halts as soon as the transmitted bytes are not all zero. The last
part is the comparison by itself, for any state `t` at line 349 with `len = 4`,
however it was reached: unequal buffers halt for good, equal ones loop. -/
theorem mismatch_halts (C : DriverConsts) (s : State) (o1 o2 : OpEnv) (rest : List Input)
    (h : s.pc = .loopFill) (h1 : succeeds C o1.e) (h2 : succeeds C o2.e) :
    ((run C s (iterSched C o1 o2)).1.rx_data ≠ (run C s (iterSched C o1 o2)).1.tx_data →
      (run C s (iterSched C o1 o2 ++ rest)).1.pc = .halt ∧
      (run C s (iterSched C o1 o2 ++ rest)).2 =
        [.MasterTransmit s.slave_addr s.tx_data.incr 4, .MasterReceive s.slave_addr 4]) ∧
    ((run C s (iterSched C o1 o2)).1.rx_data = (run C s (iterSched C o1 o2)).1.tx_data →
      (run C s (iterSched C o1 o2)).1.pc = .loopFill) ∧
    (o2.rx = none → s.tx_data.incr ≠ Buf4.zero →
      (run C s (iterSched C o1 o2)).1.rx_data = Buf4.zero ∧
      (run C s (iterSched C o1 o2 ++ rest)).1.pc = .halt) ∧
    (∀ (t : State) (r : Int) (d : Nat), t.pc = .compare → t.len = 4 →
      (t.rx_data ≠ t.tx_data →
        (run C t (.orch r d :: rest)).1.pc = .halt ∧ (run C t (.orch r d :: rest)).2 = []) ∧
      (t.rx_data = t.tx_data → (step C t (.orch r d)).1.pc = .loopFill)) := by
  have hrun := iter_run C s o1 o2 h h1 h2
  have hmis : rxAfter o2.rx Buf4.zero ≠ s.tx_data.incr →
      (run C s (iterSched C o1 o2 ++ rest)).1.pc = .halt ∧
      (run C s (iterSched C o1 o2 ++ rest)).2 =
        [.MasterTransmit s.slave_addr s.tx_data.incr 4, .MasterReceive s.slave_addr 4] := by
    intro hne
    have hpc : (run C s (iterSched C o1 o2)).1.pc = .halt := by
      rw [hrun]; simp [hne]
    obtain ⟨k1, k2, -, -⟩ := halt_forever C _ hpc rest
    rw [run_append]
    refine ⟨k1, ?_⟩
    simp only [k2, List.append_nil]
    rw [hrun]
  refine ⟨?_, ?_, ?_, fun t r d hpc hl => compare_decides C t r d rest hpc hl⟩
  · intro hne
    apply hmis
    rw [hrun] at hne
    exact hne
  · intro heq
    rw [hrun] at heq ⊢
    have heq2 : rxAfter o2.rx Buf4.zero = s.tx_data.incr := heq
    simp [heq2]
  · intro hnone hnz
    have hz : rxAfter o2.rx Buf4.zero = Buf4.zero := by rw [hnone]; rfl
    refine ⟨?_, (hmis ?_).1⟩
    · rw [hrun]; exact hz
    · rw [hz]; exact fun h => hnz h.symm

/-- The first iteration with a peer that stores nothing: `01 02 03 04` is sent,
`rx_data` stays zero, and the orchestrator halts for good. -/
theorem mismatch_halts_witness :
    (run sampleConsts loopEntry
        (iterSched sampleConsts ⟨0, 1, 1, none⟩ ⟨0, 2, 1, none⟩ ++
          [tick, .irq 1 (some ⟨1, 2, 3, 4⟩), tick])).1.pc = .halt ∧
    (run sampleConsts loopEntry
        (iterSched sampleConsts ⟨0, 1, 1, none⟩ ⟨0, 2, 1, none⟩ ++
          [tick, .irq 1 (some ⟨1, 2, 3, 4⟩), tick])).2 =
      [.MasterTransmit 9 ⟨1, 2, 3, 4⟩ 4, .MasterReceive 9 4] :=
  (mismatch_halts sampleConsts loopEntry ⟨0, 1, 1, none⟩ ⟨0, 2, 1, none⟩
    [tick, .irq 1 (some ⟨1, 2, 3, 4⟩), tick] rfl (by decide) (by decide)).1 (by decide)

/-- C5: for the second address-assignment round, a transmit or a receive: when
the request is accepted and its completion event carries the error bit, the
orchestrator ends in `while(1);` and stays there under every further input. The
only call of the whole run is the operation itself (no power-down, no driver
shutdown, no further assign, transmit or receive, and no return), and `tx_cnt`
and `rx_cnt` keep the values they had before the operation. The last part is
the test of the outcome by itself, for any state `t` at line 277, 312 or 343
with the flag at Error, however it was reached: halt for good, no call, both
counters unchanged. -/
theorem error_outcome_halts_without_cleanup (C : DriverConsts) (s : State) (o : OpEnv)
    (rest : List Input)
    (hpc : s.pc = .clearDA2 ∨ s.pc = .clearTx ∨ s.pc = .clearRx)
    (he : o.e &&& C.ARM_I3C_EVENT_TRANSFER_ERROR ≠ 0) :
    ((run C s (opSched C o ++ tick :: rest)).1.pc = .halt ∧
     (run C s (opSched C o ++ tick :: rest)).2 =
       [if s.pc = .clearDA2 then .MasterAssignDA 0x48
        else if s.pc = .clearTx then .MasterTransmit s.slave_addr s.tx_data s.len
        else .MasterReceive s.slave_addr s.len] ∧
     (run C s (opSched C o ++ tick :: rest)).1.tx_cnt = s.tx_cnt ∧
     (run C s (opSched C o ++ tick :: rest)).1.rx_cnt = s.rx_cnt) ∧
    (∀ (t : State) (r : Int) (d : Nat),
      (t.pc = .checkDA2 ∨ t.pc = .checkTx ∨ t.pc = .checkRx) →
      t.cb_event = I3C_CB_EVENT_ERROR →
      (run C t (.orch r d :: rest)).1.pc = .halt ∧ (run C t (.orch r d :: rest)).2 = [] ∧
      (run C t (.orch r d :: rest)).1.tx_cnt = t.tx_cnt ∧
      (run C t (.orch r d :: rest)).1.rx_cnt = t.rx_cnt) :=
  ⟨error_outcome_halts C s o rest hpc he,
   fun t r d hp hc => check_error_halts C t r d rest hp hc⟩

/-- A transmit of the first iteration that completes with Error: the
orchestrator halts, `tx_cnt` stays 0, and later inputs change nothing. -/
theorem error_outcome_halts_without_cleanup_witness :
    (run sampleConsts (run sampleConsts loopEntry [tick]).1
        (opSched sampleConsts ⟨0, 3, 2, none⟩ ++ tick :: [tick, .irq 1 none, tick])).1.pc
      = .halt ∧
    (run sampleConsts (run sampleConsts loopEntry [tick]).1
        (opSched sampleConsts ⟨0, 3, 2, none⟩ ++ tick :: [tick, .irq 1 none, tick])).2
      = [.MasterTransmit 9 ⟨1, 2, 3, 4⟩ 4] ∧
    (run sampleConsts (run sampleConsts loopEntry [tick]).1
        (opSched sampleConsts ⟨0, 3, 2, none⟩ ++ tick :: [tick, .irq 1 none, tick])).1.tx_cnt
      = 0 ∧
    (run sampleConsts (run sampleConsts loopEntry [tick]).1
        (opSched sampleConsts ⟨0, 3, 2, none⟩ ++ tick :: [tick, .irq 1 none, tick])).1.rx_cnt
      = 0 :=
  (error_outcome_halts_without_cleanup sampleConsts (run sampleConsts loopEntry [tick]).1
    ⟨0, 3, 2, none⟩ [tick, .irq 1 none, tick] (Or.inr (Or.inl rfl)) (by decide)).1

/-- C7 (as stated, refuted): in the first loop iteration the driver rejects the
transmit request with -1; the orchestrator powers the peripheral down, shuts
the driver down and returns to its caller. -/
theorem rejected_transmit_returns :
    (run sampleConsts loopEntry [tick, tick, .orch (-1) 0, tick, tick]).1.pc = .returned ∧
    (run sampleConsts loopEntry [tick, tick, .orch (-1) 0, tick, tick]).2 =
      [.MasterTransmit 9 ⟨1, 2, 3, 4⟩ 4, .PowerControl .ARM_POWER_OFF, .UninitializeDrv] := by
  decide

/-- C7 (amended): once the loop has begun, an Error completion of an accepted
transmit or receive and an integrity mismatch both end in `while(1);` for good,
with no power-down, no driver shutdown and no return; a transmit or receive
request that returns a code other than `ARM_DRIVER_OK` instead leads to
`PowerControl(ARM_POWER_OFF)`, then `Uninitialize`, and the function returns. -/
theorem steady_state_faults (C : DriverConsts) (s : State) (o o1 o2 : OpEnv)
    (r r2 r3 : Int) (d d2 d3 : Nat) (rest : List Input) :
    ((s.pc = .clearTx ∨ s.pc = .clearRx) → o.e &&& C.ARM_I3C_EVENT_TRANSFER_ERROR ≠ 0 →
      (run C s (opSched C o ++ tick :: rest)).1.pc = .halt ∧
      (run C s (opSched C o ++ tick :: rest)).2 =
        [if s.pc = .clearTx then .MasterTransmit s.slave_addr s.tx_data s.len
         else .MasterReceive s.slave_addr s.len]) ∧
    (s.pc = .loopFill → succeeds C o1.e → succeeds C o2.e →
      (run C s (iterSched C o1 o2)).1.rx_data ≠ (run C s (iterSched C o1 o2)).1.tx_data →
      (run C s (iterSched C o1 o2 ++ rest)).1.pc = .halt ∧
      (run C s (iterSched C o1 o2 ++ rest)).2 =
        [.MasterTransmit s.slave_addr s.tx_data.incr 4, .MasterReceive s.slave_addr 4]) ∧
    ((s.pc = .transmit ∨ s.pc = .receive) → r ≠ C.ARM_DRIVER_OK →
      (run C s (.orch r d :: .orch r2 d2 :: .orch r3 d3 :: rest)).1.pc = .returned ∧
      (run C s (.orch r d :: .orch r2 d2 :: .orch r3 d3 :: rest)).2 =
        [if s.pc = .transmit then .MasterTransmit s.slave_addr s.tx_data s.len
         else .MasterReceive s.slave_addr s.len,
         .PowerControl .ARM_POWER_OFF, .UninitializeDrv]) := by
  refine ⟨?_, ?_, ?_⟩
  · intro hpc he
    have hpc2 : s.pc = .clearDA2 ∨ s.pc = .clearTx ∨ s.pc = .clearRx := Or.inr hpc
    obtain ⟨k1, k2, -, -⟩ := error_outcome_halts C s o rest hpc2 he
    refine ⟨k1, ?_⟩
    rw [k2, issuedAfterClear]
    rcases hpc with h | h <;> simp [h]
  · intro h h1 h2 hne
    have hrun := iter_run C s o1 o2 h h1 h2
    rw [hrun] at hne
    have hne2 : rxAfter o2.rx Buf4.zero ≠ s.tx_data.incr := hne
    have hpc : (run C s (iterSched C o1 o2)).1.pc = .halt := by
      rw [hrun]; simp [hne2]
    obtain ⟨k1, k2, -, -⟩ := halt_forever C _ hpc rest
    rw [run_append]
    refine ⟨k1, ?_⟩
    simp only [k2, List.append_nil]
    rw [hrun]
  · intro hpc hr
    exact rejected_request_unwinds C s r r2 r3 d d2 d3 rest hpc hr

/-- A receive of the first iteration that the driver rejects with -1, after a
successful transmit: power-down, shutdown, return. -/
theorem steady_state_faults_witness :
    (run sampleConsts
        (run sampleConsts loopEntry (txSched sampleConsts ⟨0, 1, 1, none⟩ ++ [tick, tick])).1
        (.orch (-1) 0 :: .orch 0 0 :: .orch 0 0 :: [tick])).1.pc = .returned ∧
    (run sampleConsts
        (run sampleConsts loopEntry (txSched sampleConsts ⟨0, 1, 1, none⟩ ++ [tick, tick])).1
        (.orch (-1) 0 :: .orch 0 0 :: .orch 0 0 :: [tick])).2 =
      [.MasterReceive 9 4, .PowerControl .ARM_POWER_OFF, .UninitializeDrv] :=
  (steady_state_faults sampleConsts
    (run sampleConsts loopEntry (txSched sampleConsts ⟨0, 1, 1, none⟩ ++ [tick, tick])).1
    ⟨0, 0, 0, none⟩ ⟨0, 0, 0, none⟩ ⟨0, 0, 0, none⟩ (-1) 0 0 0 0 0 [tick]).2.2
    (Or.inr rfl) (by decide)

/-! ## Failures before the loop -/

/-- C6: when pin set-up and driver start succeed and `PowerControl(ARM_POWER_FULL)`
returns a code other than `ARM_DRIVER_OK`, the only call made afterwards, under
every further input, is one driver shutdown (`Uninitialize`): no power-down, no
bus configuration, no assign, transmit or receive; and the function has
returned, whatever code `u` the shutdown returns. -/
theorem power_up_failure_unwinds (C : DriverConsts) (s : State) (r u : Int)
    (rest : List Input) (h : s.pc = .start) (hr : r ≠ C.ARM_DRIVER_OK) :
    (run C s (tick :: .orch 0 0 :: .orch C.ARM_DRIVER_OK 0 :: .orch r 0 :: .orch u 0
        :: rest)).2 =
      [.GetVersion, .HardwareInit, .InitializeDrv, .PowerControl .ARM_POWER_FULL,
       .UninitializeDrv] ∧
    (run C s (tick :: .orch 0 0 :: .orch C.ARM_DRIVER_OK 0 :: .orch r 0 :: .orch u 0
        :: rest)).1.pc = .returned := by
  obtain ⟨pc, cb, tx, rxd, tc, rc, sa, len⟩ := s
  simp only at h
  subst h
  simp only [run_cons, step, tick, hr, ne_eq, not_false_eq_true, if_true, not_true_eq_false,
    if_false]
  obtain ⟨k1, k2⟩ := returned_forever C
    { pc := .returned, cb_event := cb, tx_data := tx, rx_data := rxd, tx_cnt := tc,
      rx_cnt := rc, slave_addr := sa, len := len } rfl rest
  simp [k1, k2]

/-- Power-up fails with -1 and the shutdown fails with -1 as well. -/
theorem power_up_failure_unwinds_witness :
    (run sampleConsts initState
        (tick :: .orch 0 0 :: .orch sampleConsts.ARM_DRIVER_OK 0 :: .orch (-1) 0
          :: .orch (-1) 0 :: [tick, tick])).2 =
      [.GetVersion, .HardwareInit, .InitializeDrv, .PowerControl .ARM_POWER_FULL,
       .UninitializeDrv] ∧
    (run sampleConsts initState
        (tick :: .orch 0 0 :: .orch sampleConsts.ARM_DRIVER_OK 0 :: .orch (-1) 0
          :: .orch (-1) 0 :: [tick, tick])).1.pc = .returned :=
  power_up_failure_unwinds sampleConsts initState (-1) (-1) [tick, tick] rfl (by decide)

/-- C8 (the code at the failing input): whatever code `rc` the bus-configuration
call `Control(I3C_MASTER_SET_BUS_MODE, I3C_BUS_MODE_PURE)` returns, a failure
code included, the orchestrator goes on: it clears the flag and issues
`MasterAssignDA`, and is then waiting for the completion; it has neither
powered down, nor shut the driver down, nor returned. -/
theorem control_result_ignored (C : DriverConsts) (rc : Int) (da : Nat) :
    (run C initState
        [tick, .orch 0 0, .orch C.ARM_DRIVER_OK 0, .orch C.ARM_DRIVER_OK 0, .orch rc 0, tick,
         .orch C.ARM_DRIVER_OK da]).2 =
      [.GetVersion, .HardwareInit, .InitializeDrv, .PowerControl .ARM_POWER_FULL, .Control,
       .MasterAssignDA 0x48] ∧
    (run C initState
        [tick, .orch 0 0, .orch C.ARM_DRIVER_OK 0, .orch C.ARM_DRIVER_OK 0, .orch rc 0, tick,
         .orch C.ARM_DRIVER_OK da]).1.pc = .waitDA1 := by
  simp [run_cons, run_nil, step, tick, initState, I3C_SLV_TAR]

/-! ## The counters -/

/-- C10 (as stated, refuted): after `2^32 - 1` iterations against an echoing
peer and one more successful transmit the orchestrator is at line 318 with
`tx_cnt = 4294967295`; the step `tx_cnt += 1` leaves `tx_cnt = 0`. So it is not
true that no step from a reachable state lowers `tx_cnt`. -/
theorem tx_cnt_wraps :
    Disciplined sampleConsts wrapState ∧ wrapState.tx_cnt = 4294967295 ∧
    (step sampleConsts wrapState tick).1.tx_cnt = 0 ∧
    ¬ (∀ s i, Disciplined sampleConsts s → s.tx_cnt ≤ (step sampleConsts s i).1.tx_cnt) := by
  refine ⟨disciplined_wrapState, rfl, by decide, ?_⟩
  intro hall
  have := hall wrapState tick disciplined_wrapState
  revert this
  decide

/-- C10 (amended): the counters are non-decreasing up to 32-bit wrap-around.
Every step either leaves `tx_cnt` alone or is the statement `tx_cnt += 1` and
sets it to `(tx_cnt + 1) mod 2^32`; hence from any state with
`tx_cnt < 2^32 - 1` the value after the step is at least the value before, and
the increment is by exactly one. The same holds for `rx_cnt`. A transmit
that is accepted and completes with Success is followed by that increment of
`tx_cnt`, a receive that is accepted and completes with Success by that of
`rx_cnt`. -/
theorem counters_monotone_below_wrap (C : DriverConsts) (s : State) (i : Input) (o : OpEnv) :
    ((step C s i).1.tx_cnt = s.tx_cnt ∨
      (s.pc = .incTx ∧ (step C s i).1.tx_cnt = (s.tx_cnt + 1) % 2 ^ 32)) ∧
    ((step C s i).1.rx_cnt = s.rx_cnt ∨
      (s.pc = .compare ∧ (step C s i).1.rx_cnt = (s.rx_cnt + 1) % 2 ^ 32)) ∧
    (s.tx_cnt < 2 ^ 32 - 1 →
      s.tx_cnt ≤ (step C s i).1.tx_cnt ∧ (step C s i).1.tx_cnt ≤ s.tx_cnt + 1) ∧
    (s.rx_cnt < 2 ^ 32 - 1 →
      s.rx_cnt ≤ (step C s i).1.rx_cnt ∧ (step C s i).1.rx_cnt ≤ s.rx_cnt + 1) ∧
    (s.pc = .loopFill → succeeds C o.e →
      (run C s (txSched C o ++ [tick])).1.tx_cnt = (s.tx_cnt + 1) % 2 ^ 32 ∧
      (s.tx_cnt < 2 ^ 32 - 1 → (run C s (txSched C o ++ [tick])).1.tx_cnt = s.tx_cnt + 1)) ∧
    (s.pc = .incTx → succeeds C o.e →
      (run C s (rxSched C o)).1.rx_cnt = (s.rx_cnt + 1) % 2 ^ 32 ∧
      (s.rx_cnt < 2 ^ 32 - 1 → (run C s (rxSched C o)).1.rx_cnt = s.rx_cnt + 1)) := by
  have ht : (step C s i).1.tx_cnt = s.tx_cnt ∨
      (s.pc = .incTx ∧ (step C s i).1.tx_cnt = (s.tx_cnt + 1) % 2 ^ 32) := by
    cases i with
    | irq e rx => exact Or.inl (step_irq C s e rx).2.2.1
    | orch r d =>
      obtain ⟨pc, cb, tx, rxd, tc, rc, sa, len⟩ := s
      cases pc <;> simp only [step] <;> (try split_ifs) <;> simp
  have hr : (step C s i).1.rx_cnt = s.rx_cnt ∨
      (s.pc = .compare ∧ (step C s i).1.rx_cnt = (s.rx_cnt + 1) % 2 ^ 32) := by
    cases i with
    | irq e rx => exact Or.inl (step_irq C s e rx).2.2.2.1
    | orch r d =>
      obtain ⟨pc, cb, tx, rxd, tc, rc, sa, len⟩ := s
      cases pc <;> simp only [step] <;> (try split_ifs) <;> simp
  refine ⟨ht, hr, ?_, ?_, ?_, ?_⟩
  · intro hlt
    rcases ht with ht | ⟨-, ht⟩ <;> rw [ht] <;> omega
  · intro hlt
    rcases hr with hr | ⟨-, hr⟩ <;> rw [hr] <;> omega
  · intro hpc hs
    have e1 : (run C s (txSched C o ++ [tick])).1.tx_cnt = (s.tx_cnt + 1) % 2 ^ 32 := by
      rw [run_append, tx_half C s o hpc (succeeds_completes hs)]
      simp [hs.2, run_cons, run_nil, step]
    refine ⟨e1, fun hlt => ?_⟩
    rw [e1]; omega
  · intro hpc hs
    have e1 : (run C s (rxSched C o)).1.rx_cnt = (s.rx_cnt + 1) % 2 ^ 32 := by
      rw [rx_half C s o hpc (succeeds_completes hs)]
      simp [hs.2]
    refine ⟨e1, fun hlt => ?_⟩
    rw [e1]; omega

/-- The first successful transmit after the loop is entered raises `tx_cnt`
from 0 to 1. -/
theorem counters_monotone_below_wrap_witness :
    (run sampleConsts loopEntry (txSched sampleConsts ⟨0, 1, 1, none⟩ ++ [tick])).1.tx_cnt
      = loopEntry.tx_cnt + 1 :=
  ((counters_monotone_below_wrap sampleConsts loopEntry tick ⟨0, 1, 1, none⟩).2.2.2.2.1
    rfl (by decide)).2 (by decide)

end I3CMaster
